import Mathlib

/-!
# OBECA gateway REST handler

A shallow embedding of `OBECA::RestHandler::get` and `OBECA::RestHandler::put`
(src/src/RestHandler.cpp) together with the properties of the request pipeline:
access guard, catalog listings, file-content lookup, and the replies issued.

Conventions of the embedding

* A request is the pair of its header map and its decoded, split path
  (`uri::split_path(uri::decode(...))`).
* The catalog `_services` (a `std::map` from TMGI to `Service`) is the list of its
  entries in iteration order; a well-formed catalog has pairwise distinct keys.
* Every call of `message.reply(...)` is recorded, in program order, in the list of
  replies returned by the handler.  The handler mutates the catalog only through
  `File::log_access`, so the catalog after the request is returned as well.
* `time(nullptr)` is read once for every record of the `files` listing; the clock of
  a request is the sequence of these readings, `time k` being the value of call
  number `k` (counted from 0).
* `paths[i]` read as a value with `i` outside the vector is a fault of the handler
  (`Fault.out_of_range`); the handler then yields no result.
-/

namespace OBECA

/-! ## Data model -/

/-- Status codes the handler replies with (`web::http::status_codes`). -/
inductive status_codes where
  | OK
  | Unauthorized
  | NotFound
  deriving DecidableEq, Repr

/-- JSON values (`web::json::value`) as the handler builds them. -/
inductive value where
  | null
  | string (s : String)
  | number (n : Int)
  | object (fields : List (String × value))
  | array (elements : List value)

/-- Assignment through `v[key] = x` on a list of object fields: an existing field is
overwritten, a new one is added. -/
def setField (key : String) (x : value) : List (String × value) → List (String × value)
  | [] => [(key, x)]
  | (k, v) :: rest => if k == key then (k, x) :: rest else (k, v) :: setField key x rest

/-- Assignment `v[key] = x` of `web::json::value`: a null value becomes an object
first.  The handler only ever assigns into null values and objects. -/
def value.set (v : value) (key : String) (x : value) : value :=
  match v with
  | .object fields => .object (setField key x fields)
  | _ => .object (setField key x [])

/-- Meta data of a cached file (`file->meta()`). -/
structure FileMeta where
  content_location : String
  content_length : Nat

/-- Cached file as the handler sees it.  The declaration of `OBECA::File` is not part
of the sources at hand; the fields are the accessors the handler calls. -/
structure File where
  meta : FileMeta
  received_at : Int
  access_count : Nat
  buffer : List Nat

/-- Modelled from the spec: `File::log_access` (declared outside the sources at hand).
Invoking "log access" increments the access counter and changes nothing else. -/
def File.log_access (file : File) : File :=
  { file with access_count := file.access_count + 1 }

/-- Broadcast service as the handler sees it.  The declaration of `OBECA::Service` is
not part of the sources at hand; the fields are the accessors the handler calls. -/
structure Service where
  bootstrapped : Bool
  serviceName : String
  serviceDescription : String
  sdp : String
  m3u : String
  streamTmgi : String
  streamType : String
  streamMcast : String
  fileList : List File

/-- The catalog `_services`: entries (TMGI, service) in iteration order. -/
abbrev Catalog := List (String × Service)

/-- Keys of a `std::map` are pairwise distinct. -/
def Catalog.wellFormed (services : Catalog) : Prop :=
  (services.map Prod.fst).Nodup

/-- Header map of a request. -/
abbrev http_headers := List (String × String)

/-- Value of `headers()[name]`: the stored value, the empty string when the header is
missing. -/
def http_headers.index (headers : http_headers) (name : String) : String :=
  match headers.lookup name with
  | some v => v
  | none => ""

/-- Request as the handler uses it: the header map and the decoded path, split into
its segments. -/
structure http_request where
  headers : http_headers
  paths : List String

/-- Body handed to `message.reply`. -/
inductive Body where
  | empty
  | json (v : value)
  | stream (buffer : List Nat) (length : Nat)

/-- One call of `message.reply`. -/
structure Reply where
  status : status_codes
  body : Body

/-- Configuration the constructor of `RestHandler` reads. -/
structure RestHandler where
  _require_bearer_token : Bool
  _api_key : String
  _api_path : String

/-- Fault of the handler: a vector element read outside the vector. -/
inductive Fault where
  | out_of_range (index size : Nat)
  deriving DecidableEq, Repr

/-! ## Library operations the handler calls -/

/-- Value of `paths[i]`: the element, a fault when `i` is not below the size. -/
def subscript (paths : List String) (i : Nat) : Except Fault String :=
  match paths[i]? with
  | some s => .ok s
  | none => .error (.out_of_range i paths.length)

/-- Position of the first occurrence of `c` (`std::string::find`), `none` for `npos`. -/
def findFrom (c : Char) : List Char → Nat → Option Nat
  | [], _ => none
  | x :: rest, pos => if x == c then some pos else findFrom c rest (pos + 1)

/-- Model of `s.find(c)`. -/
def find (s : String) (c : Char) : Option Nat :=
  findFrom c s.data 0

/-- Model of `s.substr(0, n)`, where `none` stands for `npos`: the first `n`
characters, all of `s` when `n` is `npos` or exceeds the length. -/
def substr (s : String) (n : Option Nat) : String :=
  match n with
  | none => s
  | some k => ⟨s.data.take k⟩

/-- Model of `boost::algorithm::join`. -/
def join : List String → String → String
  | [], _ => ""
  | [x], _ => x
  | x :: y :: rest, sep => x ++ sep ++ join (y :: rest) sep

/-! ## GET: catalog listings -/

/-- Record of one file in the `files` listing (lines 95 to 101); `now` is the value
the call `time(nullptr)` of line 101 returns for this record. -/
def fileRecord (now : Int) (tmgi : String) (file : File) : value :=
  let f := value.null
  let f := f.set "tmgi" (.string tmgi)
  let f := f.set "access_count" (.number file.access_count)
  let f := f.set "location" (.string file.meta.content_location)
  let f := f.set "content_length" (.number file.meta.content_length)
  let f := f.set "received_at" (.number file.received_at)
  let f := f.set "age" (.number (now - file.received_at))
  f

/-- The two nested loops of the `files` listing (lines 92 to 104); `push_back`
appends to the vector.  The state of the loops is the vector `files` and the number
of calls of `time(nullptr)` made so far: every pass of the inner loop reads the clock
once (line 101). -/
def listFiles (time : Nat → Int) (services : Catalog) : List value :=
  (services.foldl
    (fun st entry =>
      entry.2.fileList.foldl
        (fun st file => (st.1 ++ [fileRecord (time st.2) entry.1 file], st.2 + 1)) st)
    (([] : List value), 0)).1

/-- Record of one service in the `services` listing (lines 110 to 118). -/
def serviceRecord (tmgi : String) (service : Service) : value :=
  let s := value.null
  let s := s.set "service_tmgi" (.string tmgi)
  let s := s.set "service_name" (.string service.serviceName)
  let s := s.set "service_description" (.string service.serviceDescription)
  let s := s.set "sdp" (.string service.sdp)
  let s := s.set "m3u" (.string service.m3u)
  let s := s.set "stream_tmgi" (.string service.streamTmgi)
  let s := s.set "stream_type" (.string service.streamType)
  let s := s.set "stream_mcast" (.string service.streamMcast)
  s

/-- The loop of the `services` listing (lines 107 to 120). -/
def listServices (services : Catalog) : List value :=
  services.foldl
    (fun acc entry =>
      if !entry.2.bootstrapped then acc
      else acc ++ [serviceRecord entry.1 entry.2])
    []

/-! ## GET: file-content route -/

/-- The test of lines 130 to 133: the stored location, cut before its first `?`,
equals the requested path. -/
def locationMatches (content_location path : String) : Bool :=
  let file_loc := content_location
  let file_loc := substr file_loc (find file_loc '?')
  file_loc == path

/-- The inner loop over the files of one service (lines 129 to 140): every file
that matches is logged and replied with; the loop runs to the end of the list. -/
def searchFiles (path : String) : List File → List File × List Reply
  | [] => ([], [])
  | file :: rest =>
    let r := searchFiles path rest
    if locationMatches file.meta.content_location path then
      (file.log_access :: r.1,
        ⟨.OK, .stream file.buffer file.meta.content_length⟩ :: r.2)
    else
      (file :: r.1, r.2)

/-- The outer loop over the catalog (lines 124 to 142).  `paths[1]` is read once per
entry; the range `&paths[2] .. &paths[paths.size()]` is the list of the segments
from index 2 on (forming the address just past the last element reads no
element). -/
def searchServices (paths : List String) : Catalog → Except Fault (Catalog × List Reply)
  | [] => .ok ([], [])
  | (tmgi, service) :: rest => do
    let p1 ← subscript paths 1
    if tmgi == p1 then
      let location := paths.drop 2
      let path := join location "/"
      let r := searchFiles path service.fileList
      let r' ← searchServices paths rest
      pure ((tmgi, { service with fileList := r.1 }) :: r'.1, r.2 ++ r'.2)
    else
      let r' ← searchServices paths rest
      pure ((tmgi, service) :: r'.1, r'.2)

/-! ## The handlers -/

/-- Model of `RestHandler::get` (lines 77 to 148).  `time k` is the value returned
by call number `k` of `time(nullptr)` while the request is handled.  The result is the list of replies
issued, in order, and the catalog after the request. -/
def get (self : RestHandler) (time : Nat → Int) (message : http_request) (_services : Catalog) :
    Except Fault (List Reply × Catalog) :=
  let paths := message.paths
  if self._require_bearer_token &&
      (message.headers.index "Authorization" != "Bearer " ++ self._api_key) then
    .ok ([⟨.Unauthorized, .empty⟩], _services)
  else if paths.isEmpty then
    .ok ([⟨.NotFound, .empty⟩], _services)
  else do
    let p0 ← subscript paths 0
    if p0 == self._api_path then
      let p1 ← subscript paths 1
      if p1 == "files" then
        let files := listFiles time _services
        pure ([⟨.OK, .json (.array files)⟩], _services)
      else
        let p1 ← subscript paths 1
        if p1 == "services" then
          let services := listServices _services
          pure ([⟨.OK, .json (.array services)⟩], _services)
        else
          pure ([], _services)
    else
      let p0 ← subscript paths 0
      if p0 == "f" then
        let r ← searchServices paths _services
        pure (r.2 ++ [⟨.NotFound, .empty⟩], r.1)
      else
        pure ([⟨.NotFound, .empty⟩], _services)

/-- Model of `RestHandler::put` (lines 150 to 165): the replies issued and the
catalog after the request. -/
def put (self : RestHandler) (message : http_request) (_services : Catalog) :
    List Reply × Catalog :=
  if self._require_bearer_token &&
      (message.headers.index "Authorization" != "Bearer " ++ self._api_key) then
    ([⟨.Unauthorized, .empty⟩], _services)
  else
    let paths := message.paths
    if paths.isEmpty then
      ([⟨.NotFound, .empty⟩], _services)
    else
      -- not yet implemented
      ([], _services)

/-- The request passes the access guard: the bearer token is not required, or the
`Authorization` header is exactly `Bearer <key>`. -/
def Authorized (self : RestHandler) (message : http_request) : Prop :=
  self._require_bearer_token = false ∨
    message.headers.index "Authorization" = "Bearer " ++ self._api_key

/-- Handler configuration with the defaults of the constructor: no bearer token
required, API path `gw-api`. -/
def defaultHandler : RestHandler :=
  { _require_bearer_token := false, _api_key := "", _api_path := "gw-api" }

/-- Handler configuration with the bearer token `secret123` required. -/
def guardedHandler : RestHandler :=
  { _require_bearer_token := true, _api_key := "secret123", _api_path := "gw-api" }

/-- Spec-side reading of the stored location used for matching: the location
"truncated just before its first `?` (all of it when it has no `?`)". -/
def truncateBeforeQuery (s : String) : String :=
  ⟨s.data.takeWhile (fun c => c != '?')⟩

/-! ## Sample data -/

/-- Service with fixed descriptive attributes, used in the concrete runs below. -/
def sampleService (bootstrapped : Bool) (files : List File) : Service :=
  { bootstrapped := bootstrapped, serviceName := "Channel", serviceDescription := "Demo",
    sdp := "v=0", m3u := "#EXTM3U", streamTmgi := "00000f", streamType := "FLUTE/UDP",
    streamMcast := "238.1.1.95:40085", fileList := files }

/-- File of three bytes stored under a location with a query suffix. -/
def videoFile : File :=
  { meta := ⟨"video.ts?token=abc", 3⟩, received_at := 100, access_count := 0,
    buffer := [1, 2, 3] }

/-- Two files whose stored locations differ only in the query suffix. -/
def segmentFiles : List File :=
  [{ meta := ⟨"a.ts?x=1", 2⟩, received_at := 100, access_count := 0, buffer := [4, 5] },
   { meta := ⟨"a.ts?x=2", 1⟩, received_at := 101, access_count := 0, buffer := [6] }]

/-- Catalog of a bootstrapped service with one file and a service that is not
bootstrapped yet. -/
def sampleCatalog : Catalog :=
  [("tmgi1", sampleService true [videoFile]), ("tmgi2", sampleService false [])]

/-- Catalog of one service holding `segmentFiles`. -/
def segmentCatalog : Catalog :=
  [("tmgi1", sampleService true segmentFiles)]

/-- Clock that shows `t` at every reading. -/
def fixedClock (t : Int) : Nat → Int :=
  fun _ => t

/-- Clock that shows `start` at the first reading and advances by one second from
each reading to the next. -/
def tickingClock (start : Int) : Nat → Int :=
  fun k => start + k

/-- Request carrying the bearer token `secret123`. -/
def tokenRequest (paths : List String) : http_request :=
  { headers := [("Authorization", "Bearer secret123")], paths := paths }

/-- Request without any header. -/
def plainRequest (paths : List String) : http_request :=
  { headers := [], paths := paths }

/-! ## Auxiliary facts -/

theorem bearer_ne_empty (key : String) : ("" : String) ≠ "Bearer " ++ key := by
  intro h
  have h2 := congrArg String.length h
  simp [String.length_append] at h2
  have : ("Bearer " : String).length = 7 := by decide
  omega

theorem index_of_lookup_none (headers : http_headers) (name : String)
    (h : headers.lookup name = none) : headers.index name = "" := by
  simp [http_headers.index, h]

theorem guard_of_authorized (self : RestHandler) (message : http_request)
    (h : Authorized self message) :
    (self._require_bearer_token &&
      (message.headers.index "Authorization" != "Bearer " ++ self._api_key)) = false := by
  rcases h with h | h
  · simp [h]
  · simp [h]

theorem serviceRecord_eq (tmgi : String) (service : Service) :
    serviceRecord tmgi service = .object
      [("service_tmgi", .string tmgi), ("service_name", .string service.serviceName),
       ("service_description", .string service.serviceDescription),
       ("sdp", .string service.sdp), ("m3u", .string service.m3u),
       ("stream_tmgi", .string service.streamTmgi),
       ("stream_type", .string service.streamType),
       ("stream_mcast", .string service.streamMcast)] := by
  rfl

theorem fileRecord_eq (now : Int) (tmgi : String) (file : File) :
    fileRecord now tmgi file = .object
      [("tmgi", .string tmgi), ("access_count", .number file.access_count),
       ("location", .string file.meta.content_location),
       ("content_length", .number file.meta.content_length),
       ("received_at", .number file.received_at),
       ("age", .number (now - file.received_at))] := by
  rfl

theorem listServices_foldl (services : Catalog) (acc : List value) :
    services.foldl
      (fun acc entry =>
        if !entry.2.bootstrapped then acc
        else acc ++ [serviceRecord entry.1 entry.2]) acc
      = acc ++ (services.filter (fun e => e.2.bootstrapped)).map
          (fun e => serviceRecord e.1 e.2) := by
  induction services generalizing acc with
  | nil => simp
  | cons e rest ih =>
    rw [List.foldl_cons, ih]
    cases hb : e.2.bootstrapped <;> simp [hb, List.filter_cons]

theorem listServices_eq (services : Catalog) :
    listServices services =
      (services.filter (fun e => e.2.bootstrapped)).map (fun e => serviceRecord e.1 e.2) := by
  unfold listServices
  rw [listServices_foldl]
  simp

theorem fileLoop_foldl (time : Nat → Int) (tmgi : String) (files : List File)
    (acc : List value) (n : Nat) :
    files.foldl
      (fun st file => (st.1 ++ [fileRecord (time st.2) tmgi file], st.2 + 1)) (acc, n)
      = (acc ++ (List.enumFrom n (files.map (fun file => (tmgi, file)))).map
            (fun p => fileRecord (time p.1) p.2.1 p.2.2),
          n + files.length) := by
  induction files generalizing acc n with
  | nil => simp
  | cons f rest ih =>
    rw [List.foldl_cons, ih]
    simp [List.enumFrom_cons, Nat.add_assoc, Nat.add_comm 1]

theorem listFiles_foldl (time : Nat → Int) (services : Catalog) (acc : List value)
    (n : Nat) :
    services.foldl
      (fun st entry =>
        entry.2.fileList.foldl
          (fun st file => (st.1 ++ [fileRecord (time st.2) entry.1 file], st.2 + 1)) st)
      (acc, n)
      = (acc ++ (List.enumFrom n
            (services.flatMap (fun e => e.2.fileList.map (fun file => (e.1, file))))).map
            (fun p => fileRecord (time p.1) p.2.1 p.2.2),
          n + (services.flatMap
            (fun e => e.2.fileList.map (fun file => (e.1, file)))).length) := by
  induction services generalizing acc n with
  | nil => simp
  | cons e rest ih =>
    rw [List.foldl_cons, fileLoop_foldl, ih]
    simp [List.flatMap_cons, List.enumFrom_append, Nat.add_assoc]

theorem listFiles_eq (time : Nat → Int) (services : Catalog) :
    listFiles time services =
      (List.enum
        (services.flatMap (fun e => e.2.fileList.map (fun file => (e.1, file))))).map
        (fun p => fileRecord (time p.1) p.2.1 p.2.2) := by
  unfold listFiles
  rw [listFiles_foldl]
  simp [List.enum]

theorem length_catalog_files (services : Catalog) :
    (services.flatMap (fun e => e.2.fileList.map (fun file => (e.1, file)))).length
      = (services.map (fun e => e.2.fileList.length)).sum := by
  induction services with
  | nil => simp
  | cons e rest ih => simp [List.flatMap_cons, ih]

/-! ## Access guard -/

/-- C1: with the bearer token required, a GET or PUT request whose `Authorization`
header is missing (read as the empty string) or differs from `Bearer <key>` gets
exactly one reply, `Unauthorized`, whatever the path and the catalog, and the catalog
(hence every access counter) is left as it was. -/
theorem unauthorized_request_rejected (self : RestHandler) (time : Nat → Int)
    (message : http_request) (services : Catalog)
    (hreq : self._require_bearer_token = true)
    (hne : message.headers.lookup "Authorization" = none ∨
      message.headers.index "Authorization" ≠ "Bearer " ++ self._api_key) :
    get self time message services = .ok ([⟨.Unauthorized, .empty⟩], services) ∧
    put self message services = ([⟨.Unauthorized, .empty⟩], services) := by
  have hne2 : message.headers.index "Authorization" ≠ "Bearer " ++ self._api_key := by
    rcases hne with h | h
    · rw [index_of_lookup_none _ _ h]
      exact bearer_ne_empty _
    · exact h
  constructor
  · simp [get, hreq, hne2]
  · simp [put, hreq, hne2]

/-- Witness for C1: a GET and a PUT on the file route without any header, token
`secret123` required. -/
theorem unauthorized_request_rejected_witness :
    get guardedHandler (fixedClock 0) ⟨[], ["f", "t1", "a.ts"]⟩ [] = .ok ([⟨.Unauthorized, .empty⟩], []) ∧
    put guardedHandler ⟨[], ["f", "t1", "a.ts"]⟩ [] = ([⟨.Unauthorized, .empty⟩], []) :=
  unauthorized_request_rejected guardedHandler (fixedClock 0) ⟨[], ["f", "t1", "a.ts"]⟩ [] rfl
    (Or.inl rfl)

/-! ## Catalog listings -/

/-- C4: an authorized GET on `<api path>/services` replies OK once with a JSON array
holding, in catalog order, one record for each bootstrapped service and none for the
others; the record carries the catalog key as `service_tmgi` and the seven
attributes of the service.  The catalog is unchanged. -/
theorem services_listing (self : RestHandler) (time : Nat → Int) (message : http_request)
    (services : Catalog) (rest : List String) (hauth : Authorized self message)
    (hpath : message.paths = self._api_path :: "services" :: rest) :
    get self time message services = .ok
      ([⟨.OK, .json (.array
          ((services.filter (fun e => e.2.bootstrapped)).map (fun e =>
            .object
              [("service_tmgi", .string e.1),
               ("service_name", .string e.2.serviceName),
               ("service_description", .string e.2.serviceDescription),
               ("sdp", .string e.2.sdp),
               ("m3u", .string e.2.m3u),
               ("stream_tmgi", .string e.2.streamTmgi),
               ("stream_type", .string e.2.streamType),
               ("stream_mcast", .string e.2.streamMcast)])))⟩],
       services) := by
  have hg := guard_of_authorized self message hauth
  have hsf : ("services" == "files") = false := by decide
  unfold get
  simp only [hg, hpath]
  simp [subscript, hsf, listServices_eq, serviceRecord_eq, pure, Except.pure, bind, Except.bind]

/-- Witness for C4: the sample catalog lists its bootstrapped service only. -/
theorem services_listing_witness :
    Authorized guardedHandler (tokenRequest ["gw-api", "services"]) ∧
    get guardedHandler (fixedClock 7) (tokenRequest ["gw-api", "services"]) sampleCatalog = .ok
      ([⟨.OK, .json (.array
          [.object
            [("service_tmgi", .string "tmgi1"),
             ("service_name", .string "Channel"),
             ("service_description", .string "Demo"),
             ("sdp", .string "v=0"),
             ("m3u", .string "#EXTM3U"),
             ("stream_tmgi", .string "00000f"),
             ("stream_type", .string "FLUTE/UDP"),
             ("stream_mcast", .string "238.1.1.95:40085")]])⟩],
       sampleCatalog) :=
  ⟨Or.inr rfl,
    services_listing guardedHandler (fixedClock 7) (tokenRequest ["gw-api", "services"]) sampleCatalog []
      (Or.inr rfl) rfl⟩

/-- C5: an authorized GET on `<api path>/files` replies OK once with a JSON array of
one record per file across all services (as many records as the services hold files
in total), in catalog and file order; each record carries the TMGI of the owning
service, the access counter, content location, content length and reception time of
the file, and `age`, the clock reading taken for that record while the response is
built (record number `k` uses reading number `k` of the request) minus the reception
time.  The catalog is unchanged. -/
theorem files_listing (self : RestHandler) (time : Nat → Int) (message : http_request)
    (services : Catalog) (rest : List String) (hauth : Authorized self message)
    (hpath : message.paths = self._api_path :: "files" :: rest) :
    ∃ records : List value,
      get self time message services = .ok ([⟨.OK, .json (.array records)⟩], services) ∧
      records =
        (List.enum
          (services.flatMap (fun e => e.2.fileList.map (fun file => (e.1, file))))).map
          (fun p =>
            .object
              [("tmgi", .string p.2.1),
               ("access_count", .number p.2.2.access_count),
               ("location", .string p.2.2.meta.content_location),
               ("content_length", .number p.2.2.meta.content_length),
               ("received_at", .number p.2.2.received_at),
               ("age", .number (time p.1 - p.2.2.received_at))]) ∧
      records.length = (services.map (fun e => e.2.fileList.length)).sum := by
  have hg := guard_of_authorized self message hauth
  refine ⟨listFiles time services, ?_, ?_, ?_⟩
  · unfold get
    simp only [hg, hpath]
    simp [subscript, pure, Except.pure, bind, Except.bind]
  · rw [listFiles_eq]
    rfl
  · rw [listFiles_eq, List.length_map, List.enum_length, length_catalog_files]

/-- Witness for C5: the files listing of the two-file catalog, the clock showing 130
for the first record and 131 for the second. -/
theorem files_listing_witness :
    Authorized defaultHandler (plainRequest ["gw-api", "files"]) ∧
    ∃ records : List value,
      get defaultHandler (tickingClock 130) (plainRequest ["gw-api", "files"]) segmentCatalog
        = .ok ([⟨.OK, .json (.array records)⟩], segmentCatalog) ∧
      records =
        [.object [("tmgi", .string "tmgi1"), ("access_count", .number 0),
            ("location", .string "a.ts?x=1"), ("content_length", .number 2),
            ("received_at", .number 100), ("age", .number 30)],
         .object [("tmgi", .string "tmgi1"), ("access_count", .number 0),
            ("location", .string "a.ts?x=2"), ("content_length", .number 1),
            ("received_at", .number 101), ("age", .number 30)]] ∧
      records.length = 2 :=
  ⟨Or.inl rfl,
    files_listing defaultHandler (tickingClock 130) (plainRequest ["gw-api", "files"])
      segmentCatalog [] (Or.inl rfl) rfl⟩

/-! ## Location matching -/

theorem findFrom_spec (c : Char) (l : List Char) (pos : Nat) :
    match findFrom c l pos with
    | none => l.takeWhile (fun x => x != c) = l
    | some k => pos ≤ k ∧ l.take (k - pos) = l.takeWhile (fun x => x != c) := by
  induction l generalizing pos with
  | nil => simp [findFrom]
  | cons x rest ih =>
    by_cases hx : x = c
    · subst hx
      simp [findFrom, List.takeWhile_cons]
    · have hb : (x == c) = false := by simpa using hx
      have ih2 := ih (pos + 1)
      simp only [findFrom, hb]
      cases hf : findFrom c rest (pos + 1) with
      | none =>
        rw [hf] at ih2
        simp only [Bool.false_eq_true, if_false] 
        simp [List.takeWhile_cons, hx, ih2]
      | some k =>
        rw [hf] at ih2
        obtain ⟨hle, htake⟩ := ih2
        simp only [Bool.false_eq_true, if_false]
        refine ⟨by omega, ?_⟩
        have hk : k - pos = (k - (pos + 1)) + 1 := by omega
        rw [hk, List.take_succ_cons, htake]
        simp [List.takeWhile_cons, hx]

theorem substr_find_eq (s : String) :
    substr s (find s '?') = truncateBeforeQuery s := by
  have h := findFrom_spec '?' s.data 0
  unfold find substr truncateBeforeQuery
  cases hf : findFrom '?' s.data 0 with
  | none =>
    rw [hf] at h
    simp only at h
    rw [h]
  | some k =>
    rw [hf] at h
    simp only at h
    rw [← h.2]
    simp

theorem locationMatches_iff (s p : String) :
    locationMatches s p = true ↔ p = truncateBeforeQuery s := by
  unfold locationMatches
  simp only [substr_find_eq]
  constructor
  · intro h
    exact (eq_of_beq h).symm
  · intro h
    rw [h]
    simp

/-- C6: a stored content location `s` matches a requested location `p` exactly when
`p` equals `s` truncated just before its first `?` (all of `s` when it has none).  A
stored `video.ts?token=abc` matches the request `video.ts` and does not match the
request whose location is literally `video.ts?token=abc`. -/
theorem location_match_iff_truncated :
    (∀ s p : String, locationMatches s p = true ↔ p = truncateBeforeQuery s) ∧
    locationMatches "video.ts?token=abc" (join ["video.ts"] "/") = true ∧
    locationMatches "video.ts?token=abc" (join ["video.ts?token=abc"] "/") = false :=
  ⟨locationMatches_iff, by decide, by decide⟩

/-! ## File-content route -/

theorem searchFiles_no_match (path : String) (files : List File)
    (h : ∀ file ∈ files, locationMatches file.meta.content_location path = false) :
    searchFiles path files = (files, []) := by
  induction files with
  | nil => rfl
  | cons file rest ih =>
    have h1 := h file (List.mem_cons_self _ _)
    have h2 := ih (fun f hf => h f (List.mem_cons_of_mem _ hf))
    simp [searchFiles, h1, h2]

theorem searchServices_no_match (first tmgi : String) (location : List String)
    (services : Catalog)
    (h : ∀ e ∈ services, e.1 = tmgi → ∀ file ∈ e.2.fileList,
      locationMatches file.meta.content_location (join location "/") = false) :
    searchServices (first :: tmgi :: location) services = .ok (services, []) := by
  induction services with
  | nil => rfl
  | cons e rest ih =>
    obtain ⟨key, service⟩ := e
    have h2 := ih (fun e he => h e (List.mem_cons_of_mem _ he))
    by_cases hk : key = tmgi
    · have h1 := searchFiles_no_match _ _ (h (key, service) (List.mem_cons_self _ _) hk)
      subst hk
      simp [searchServices, subscript, h1, h2, pure, Except.pure, bind, Except.bind]
    · simp [searchServices, subscript, hk, h2, pure, Except.pure, bind, Except.bind]

/-- C2 (evaluation at the failing input): the GET `/f/tmgi1/video.ts` matches the
stored file `video.ts?token=abc`; the handler replies OK with the buffer of the
file and its content length, and then replies Not Found as well. -/
theorem file_route_match_replies_twice :
    get defaultHandler (fixedClock 7) (plainRequest ["f", "tmgi1", "video.ts"]) sampleCatalog
      = .ok ([⟨.OK, .stream [1, 2, 3] 3⟩, ⟨.NotFound, .empty⟩],
          [("tmgi1", sampleService true [{ videoFile with access_count := 1 }]),
           ("tmgi2", sampleService false [])]) := by
  rfl

/-- C3 (evaluation at the failing input): two files of one service have the same
location once the query suffix is cut; the GET `/f/tmgi1/a.ts` increments the access
counter of both, not only of the first. -/
theorem file_route_logs_every_match :
    get defaultHandler (fixedClock 7) (plainRequest ["f", "tmgi1", "a.ts"]) segmentCatalog
      = .ok ([⟨.OK, .stream [4, 5] 2⟩, ⟨.OK, .stream [6] 1⟩, ⟨.NotFound, .empty⟩],
          [("tmgi1", sampleService true
            [{ meta := ⟨"a.ts?x=1", 2⟩, received_at := 100, access_count := 1,
               buffer := [4, 5] },
             { meta := ⟨"a.ts?x=2", 1⟩, received_at := 101, access_count := 1,
               buffer := [6] }])]) := by
  rfl

/-! ## Short and unmatched paths -/

/-- C8 (evaluation at the failing inputs): on the single segment `gw-api` the
handler reads `paths[1]` of a vector of size 1, for every catalog; on the single
segment `f` it does so as soon as the catalog has an entry.  No Not Found reply is
produced. -/
theorem short_path_reads_out_of_range :
    (∀ (time : Nat → Int) (services : Catalog),
      get defaultHandler time (plainRequest ["gw-api"]) services
        = .error (.out_of_range 1 1)) ∧
    (∀ (time : Nat → Int) (e : String × Service) (services : Catalog),
      get defaultHandler time (plainRequest ["f"]) (e :: services)
        = .error (.out_of_range 1 1)) := by
  constructor
  · intro time services
    rfl
  · intro time e services
    obtain ⟨key, service⟩ := e
    rfl

/-- C9 (evaluation at the failing input): on `gw-api/status`, the API path followed
by a segment other than `files` and `services`, the handler issues no reply at
all, for every catalog. -/
theorem unknown_api_route_no_reply :
    ∀ (time : Nat → Int) (services : Catalog),
      get defaultHandler time (plainRequest ["gw-api", "status"]) services
        = .ok ([], services) := by
  intro time services
  rfl

/-! ## PUT -/

/-- C10 (evaluation at the failing input): the authorized PUT `/gw-api/anything` is
not answered by exactly one reply; the handler returns without any call of
`message.reply`. -/
theorem put_nonempty_path_not_one_reply :
    ¬ ∃ r : Reply,
      (put defaultHandler (plainRequest ["gw-api", "anything"]) sampleCatalog).1 = [r] := by
  rintro ⟨r, hr⟩
  have h : (put defaultHandler (plainRequest ["gw-api", "anything"]) sampleCatalog).1 = [] :=
    rfl
  rw [h] at hr
  exact List.noConfusion hr

/-- Behaviour of `put` on authorized requests: the empty path is answered by exactly
one reply, Not Found, and the catalog is unchanged; on a non-empty path the stub
branch returns the catalog unchanged and the list of replies is empty. -/
theorem put_placeholder (self : RestHandler) (message : http_request) (services : Catalog)
    (hauth : Authorized self message) :
    (message.paths = [] →
      put self message services = ([⟨.NotFound, .empty⟩], services)) ∧
    (message.paths ≠ [] → put self message services = ([], services)) := by
  have hg := guard_of_authorized self message hauth
  constructor
  · intro hp
    unfold put
    simp only [hg, hp]
    simp
  · intro hp
    unfold put
    simp only [hg]
    simp [hp]

/-- Concrete run of `put_placeholder`: an authorized PUT with the empty path and one
with a non-empty path. -/
theorem put_placeholder_witness :
    Authorized guardedHandler (tokenRequest []) ∧
    put guardedHandler (tokenRequest []) sampleCatalog
      = ([⟨.NotFound, .empty⟩], sampleCatalog) ∧
    Authorized guardedHandler (tokenRequest ["gw-api", "anything"]) ∧
    put guardedHandler (tokenRequest ["gw-api", "anything"]) sampleCatalog
      = ([], sampleCatalog) :=
  ⟨Or.inr rfl,
    (put_placeholder guardedHandler (tokenRequest []) sampleCatalog (Or.inr rfl)).1 rfl,
    Or.inr rfl,
    (put_placeholder guardedHandler (tokenRequest ["gw-api", "anything"]) sampleCatalog
      (Or.inr rfl)).2 (by decide)⟩

/-! ## File-content route: a single matching file -/

theorem searchFiles_append (path : String) (a b : List File) :
    searchFiles path (a ++ b) =
      ((searchFiles path a).1 ++ (searchFiles path b).1,
       (searchFiles path a).2 ++ (searchFiles path b).2) := by
  induction a with
  | nil => simp [searchFiles]
  | cons file rest ih =>
    cases hm : locationMatches file.meta.content_location path <;>
      simp [searchFiles, hm, ih]

theorem searchServices_skip (first tmgi : String) (location : List String)
    (pre rest : Catalog) (h : ∀ e ∈ pre, e.1 ≠ tmgi) :
    searchServices (first :: tmgi :: location) (pre ++ rest) =
      (searchServices (first :: tmgi :: location) rest).map
        (fun r => (pre ++ r.1, r.2)) := by
  induction pre with
  | nil =>
    rw [List.nil_append]
    cases searchServices (first :: tmgi :: location) rest <;> simp [Except.map]
  | cons e pre ih =>
    obtain ⟨key, service⟩ := e
    have hk : key ≠ tmgi := h (key, service) (List.mem_cons_self _ _)
    have ih2 := ih (fun e he => h e (List.mem_cons_of_mem _ he))
    rw [List.cons_append, searchServices, ih2]
    cases searchServices (first :: tmgi :: location) rest <;>
      simp [subscript, hk, Except.map, pure, Except.pure, bind, Except.bind]

theorem keys_ne_of_wellFormed (pre post : Catalog) (tmgi : String) (service : Service)
    (h : Catalog.wellFormed (pre ++ (tmgi, service) :: post)) :
    (∀ e ∈ pre, e.1 ≠ tmgi) ∧ (∀ e ∈ post, e.1 ≠ tmgi) := by
  unfold Catalog.wellFormed at h
  rw [List.map_append, List.map_cons, List.nodup_append] at h
  obtain ⟨_, h2, h3⟩ := h
  rw [List.nodup_cons] at h2
  constructor
  · intro e he hk
    have hmem : e.1 ∈ List.map Prod.fst pre := List.mem_map_of_mem _ he
    exact h3 hmem (by rw [hk]; exact List.mem_cons_self _ _)
  · intro e he hk
    have hmem : e.1 ∈ List.map Prod.fst post := List.mem_map_of_mem _ he
    rw [hk] at hmem
    exact h2.1 hmem

/-- On a catalog with distinct keys, a GET `/f/<tmgi>/<location...>` for which exactly
one file of the service `tmgi` matches is answered OK with the buffer and content
length of that file, followed by a second reply, Not Found; the access counter of
the matching file grows by one and nothing else in the catalog changes. -/
theorem file_route_single_match (self : RestHandler) (time : Nat → Int) (message : http_request)
    (pre post : Catalog) (tmgi : String) (service : Service) (fpre fpost : List File)
    (file : File) (location : List String)
    (hauth : Authorized self message) (hroute : self._api_path ≠ "f")
    (hpath : message.paths = "f" :: tmgi :: location)
    (hwf : Catalog.wellFormed (pre ++ (tmgi, service) :: post))
    (hfiles : service.fileList = fpre ++ file :: fpost)
    (hmatch : join location "/" = truncateBeforeQuery file.meta.content_location)
    (hothers : ∀ g ∈ fpre ++ fpost,
      truncateBeforeQuery g.meta.content_location ≠ join location "/") :
    get self time message (pre ++ (tmgi, service) :: post) = .ok
      ([⟨.OK, .stream file.buffer file.meta.content_length⟩, ⟨.NotFound, .empty⟩],
       pre ++ (tmgi, { service with fileList := fpre ++ file.log_access :: fpost }) :: post)
    ∧ file.log_access.access_count = file.access_count + 1 := by
  have hg := guard_of_authorized self message hauth
  obtain ⟨hkpre, hkpost⟩ := keys_ne_of_wellFormed pre post tmgi service hwf
  have hno : ∀ g ∈ fpre ++ fpost,
      locationMatches g.meta.content_location (join location "/") = false := by
    intro g hgm
    cases hm : locationMatches g.meta.content_location (join location "/") with
    | false => rfl
    | true => exact absurd ((locationMatches_iff _ _).1 hm).symm (hothers g hgm)
  have hyes : locationMatches file.meta.content_location (join location "/") = true :=
    (locationMatches_iff _ _).2 hmatch
  have hfpre := searchFiles_no_match (join location "/") fpre
    (fun g hgm => hno g (List.mem_append_left _ hgm))
  have hfpost := searchFiles_no_match (join location "/") fpost
    (fun g hgm => hno g (List.mem_append_right _ hgm))
  have hsf : searchFiles (join location "/") service.fileList =
      (fpre ++ file.log_access :: fpost,
        [⟨.OK, .stream file.buffer file.meta.content_length⟩]) := by
    rw [hfiles, searchFiles_append, hfpre]
    simp [searchFiles, hyes, hfpost]
  have hpost := searchServices_no_match "f" tmgi location post
    (fun e he hk => absurd hk (hkpost e he))
  have hs : searchServices ("f" :: tmgi :: location) (pre ++ (tmgi, service) :: post) =
      .ok (pre ++ (tmgi, { service with fileList := fpre ++ file.log_access :: fpost })
            :: post,
          [⟨.OK, .stream file.buffer file.meta.content_length⟩]) := by
    rw [searchServices_skip "f" tmgi location pre _ hkpre]
    simp [searchServices, subscript, hsf, hpost, Except.map, pure, Except.pure, bind,
      Except.bind]
  have hr : ("f" == self._api_path) = false := by
    simpa using fun h => hroute h.symm
  refine ⟨?_, rfl⟩
  unfold get
  simp only [hg, hpath]
  simp [subscript, hr, hs, pure, Except.pure, bind, Except.bind]

/-! ## Unmatched paths that are answered -/

/-- An authorized GET with the empty path, or with a first segment that is neither
the API path nor `f`, is answered Not Found exactly once; the catalog is unchanged. -/
theorem unmatched_first_segment_not_found (self : RestHandler) (time : Nat → Int)
    (message : http_request) (services : Catalog) (hauth : Authorized self message)
    (hpath : message.paths = [] ∨
      ∃ first rest, message.paths = first :: rest ∧ first ≠ self._api_path ∧ first ≠ "f") :
    get self time message services = .ok ([⟨.NotFound, .empty⟩], services) := by
  have hg := guard_of_authorized self message hauth
  rcases hpath with hp | ⟨first, rest, hp, h1, h2⟩
  · unfold get
    simp only [hg, hp]
    simp
  · unfold get
    simp only [hg, hp]
    simp [subscript, h1, h2, pure, Except.pure, bind, Except.bind]

end OBECA
